import Mathlib

/-!
Verification development for the exporter-helper sender chain and bounded
queue of the OpenTelemetry collector (`exporter/exporterhelper/common.go`
and the bounded in-memory queue it drives).

Part 1 embeds the sender-chain construction of `common.go`: the
`baseExporter` record with its four sender slots, the `Option` values that
replace slots, `connectSenders`, `send`, `Start` and `Shutdown`.

Part 2 models the bounded in-memory queue.  Its implementation file is not
part of the sources at hand (only its tests are), so the queue is modelled
from the specification's contract (see the doc comments marked
`Modelled from the spec:`).
-/

namespace OtelExporterHelper

/-- Errors are opaque values; we model them as strings (Go `error`,
`nil` becomes `none`). -/
abbrev Err := String

/-- `internal.Request` as carried through the chain: an opaque payload
string, the item count (`req.Count()`), and whether a processing-finished
callback is set (`baseRequest.processingFinishedCallback != nil`,
common.go:58-61). -/
structure Request where
  str : String := ""
  count : Nat := 0
  hasFinishedCallback : Bool := false
deriving DecidableEq

/-- `baseRequest.OnProcessingFinished` (common.go:75-79): invokes the
callback exactly when one is set.  The effect of one invocation is modelled
as incrementing a fire counter. -/
def Request.OnProcessingFinished (req : Request) (fired : Nat) : Nat :=
  if req.hasFinishedCallback then fired + 1 else fired

/-- The four slots of the sender chain held by `baseExporter`
(common.go:169-172). -/
inductive Slot
  | queue
  | obsrep
  | retry
  | timeout
deriving DecidableEq

/-- `RetrySettings`: only the `Enabled` field is consulted by
`WithRetry` in common.go; the backoff parameters live in a file outside
the sources at hand and are irrelevant to the claims below. -/
structure RetrySettings where
  Enabled : Bool
deriving DecidableEq

/-- `QueueSettings`: only the `Enabled` field is consulted by `WithQueue`
in common.go. -/
structure QueueSettings where
  Enabled : Bool
deriving DecidableEq

/-- `TimeoutSettings` (common.go:100-106): a single timeout duration,
modelled in milliseconds. -/
structure TimeoutSettings where
  Timeout : Nat
deriving DecidableEq

/-- `NewDefaultTimeoutSettings`: 5 seconds (common.go:101 documents the
default). -/
def NewDefaultTimeoutSettings : TimeoutSettings :=
  { Timeout := 5000 }

/-- What kind of sender currently occupies a slot:
`passthrough` is `baseRequestSender` (common.go:25-39), `errorLogging` is
`errorLoggingRequestSender` with its log message (common.go:41-53), and the
remaining kinds are the concrete stage senders installed by the factory or
by an enabled option. -/
inductive SenderKind
  | passthrough
  | errorLogging (message : String)
  | obsrepKind
  | retryKind (cfg : RetrySettings)
  | queueKind (cfg : QueueSettings)
  | timeoutKind
deriving DecidableEq

/-- A sender occupying a slot: its kind, the slot its `nextSender` pointer
designates after wiring (`setNextSender`, common.go:37-39; `none` = not
wired), and the results its `Start`/`Shutdown` component hooks return
(`component.StartFunc`/`ShutdownFunc`; `none` = nil error). -/
structure SenderRec where
  kind : SenderKind
  next : Option Slot := none
  startErr : Option Err := none
  shutdownErr : Option Err := none
deriving DecidableEq

/-- `baseExporter` (common.go:154-178): the four sender slots, the
`requestExporter` flag, the wrapped exporter's start/shutdown hook results
(`component.StartFunc`/`ShutdownFunc`, overridable by
`WithStart`/`WithShutdown`), the timeout configuration, and the
accumulated consumer options (`WithCapabilities` appends). -/
structure baseExporter where
  requestExporter : Bool
  queueSender : SenderRec
  obsrepSender : SenderRec
  retrySender : SenderRec
  timeoutSender : SenderRec
  timeoutCfg : TimeoutSettings
  startErr : Option Err := none
  shutdownErr : Option Err := none
  consumerMutates : List Bool := []
deriving DecidableEq

/-- Look up the sender occupying a slot of a `baseExporter`. -/
def baseExporter.slot (be : baseExporter) : Slot → SenderRec
  | .queue => be.queueSender
  | .obsrep => be.obsrepSender
  | .retry => be.retrySender
  | .timeout => be.timeoutSender

/-- Log message installed by `WithRetry` when retries are disabled
(common.go:115). -/
def retryDisabledMessage : String :=
  "Exporting failed. Try enabling retry_on_failure config option to retry on retryable errors"

/-- Log message installed by `WithQueue` when queueing is disabled
(common.go:134). -/
def queueDisabledMessage : String :=
  "Exporting failed. Dropping data. Try enabling sending_queue to survive temporary failures."

/-- Panic message of `WithQueue` on a request exporter (common.go:129). -/
def queuePanicMessage : String :=
  "queueing is not available for the new request exporters yet"

/-- The `Option` values of common.go (functions on `*baseExporter`),
reified: `WithStart`, `WithShutdown`, `WithTimeout`, `WithRetry`,
`WithQueue`, `WithCapabilities`.  `withStart`/`withShutdown` carry the
result the user hook will return; `withCapabilities` carries the
`MutatesData` capability flag. -/
inductive ExpOption
  | withStart (e : Option Err)
  | withShutdown (e : Option Err)
  | withTimeout (cfg : TimeoutSettings)
  | withRetry (cfg : RetrySettings)
  | withQueue (cfg : QueueSettings)
  | withCapabilities (mutates : Bool)
deriving DecidableEq

/-- Apply one option to the exporter under construction, mirroring the
bodies in common.go:86-151.  `WithQueue` panics on a request exporter
(common.go:128-130); a panic is modelled as `Except.error` carrying the
panic message, aborting construction. -/
def applyOption (o : ExpOption) (be : baseExporter) : Except String baseExporter :=
  match o with
  | .withStart e => .ok { be with startErr := e }
  | .withShutdown e => .ok { be with shutdownErr := e }
  | .withTimeout cfg => .ok { be with timeoutCfg := cfg }
  | .withRetry cfg =>
      if !cfg.Enabled then
        .ok { be with retrySender := { kind := .errorLogging retryDisabledMessage } }
      else
        .ok { be with retrySender := { kind := .retryKind cfg } }
  | .withQueue cfg =>
      if be.requestExporter then
        .error queuePanicMessage
      else if !cfg.Enabled then
        .ok { be with queueSender := { kind := .errorLogging queueDisabledMessage } }
      else
        .ok { be with queueSender := { kind := .queueKind cfg } }
  | .withCapabilities m => .ok { be with consumerMutates := be.consumerMutates ++ [m] }

/-- `connectSenders` (common.go:218-222): wires
`queue → obsrep → retry → timeout`; the timeout sender is the tail and is
given no next pointer. -/
def connectSenders (be : baseExporter) : baseExporter :=
  { be with
    queueSender := { be.queueSender with next := some .obsrep }
    obsrepSender := { be.obsrepSender with next := some .retry }
    retrySender := { be.retrySender with next := some .timeout } }

/-- The exporter state built by `newBaseExporter` before options apply
(common.go:189-202): pass-through queue and retry slots, the observability
sender produced by the factory argument `osf`, an always-present timeout
sender with the default settings. -/
def initialBaseExporter (requestExporter : Bool) (osf : SenderRec) : baseExporter :=
  { requestExporter := requestExporter
    queueSender := { kind := .passthrough }
    obsrepSender := osf
    retrySender := { kind := .passthrough }
    timeoutSender := { kind := .timeoutKind }
    timeoutCfg := NewDefaultTimeoutSettings }

/-- The option loop of `newBaseExporter` (common.go:204-206): apply each
option in order; a panic aborts the loop. -/
def applyOptions : List ExpOption → baseExporter → Except String baseExporter
  | [], be => .ok be
  | o :: os, be =>
      match applyOption o be with
      | .ok be' => applyOptions os be'
      | .error e => .error e

/-- `newBaseExporter` (common.go:181-210): build the initial exporter,
apply every option in order, then `connectSenders`. -/
def newBaseExporter (requestExporter : Bool) (osf : SenderRec)
    (options : List ExpOption) : Except String baseExporter :=
  match applyOptions options (initialBaseExporter requestExporter osf) with
  | .ok be => .ok (connectSenders be)
  | .error e => .error e

/-- The list of slots visited when dispatch starts at `s` and each sender
forwards along its `next` pointer, with fuel `n`. -/
def nextChain (be : baseExporter) : Option Slot → Nat → List Slot
  | none, _ => []
  | some _, 0 => []
  | some s, n + 1 => s :: nextChain be (be.slot s).next n

/-- `baseExporter.send` dispatches to the head of the chain —
`be.queueSender.send(req)` (common.go:213-215); `sendPath` is the slot
sequence that dispatch visits starting there. -/
def baseExporter.sendPath (be : baseExporter) : List Slot :=
  nextChain be (some Slot.queue) 8

/-- Lifecycle events observable while starting / shutting the exporter
down. -/
inductive SEvent
  | startTransport
  | startQueue
  | shutdownRetry
  | shutdownQueue
  | shutdownTransport
deriving DecidableEq

/-- `baseExporter.Start` (common.go:224-232): start the wrapped exporter
first; only when it returns nil start the queue sender.  Returns the
trace of hook invocations and the returned error. -/
def baseExporter.Start (be : baseExporter) : List SEvent × Option Err :=
  match be.startErr with
  | some e => ([.startTransport], some e)
  | none => ([.startTransport, .startQueue], be.queueSender.startErr)

/-- `multierr.Combine`: the non-nil errors, in order; the empty list is
Go `nil`. -/
def multierrCombine (es : List (Option Err)) : List Err :=
  es.filterMap id

/-- A sender's `Shutdown` hook: emits its invocation event and returns its
error. -/
def SenderRec.shutdownCall (r : SenderRec) (ev : SEvent) : List SEvent × Option Err :=
  ([ev], r.shutdownErr)

/-- `baseExporter.Shutdown` (common.go:234-242): shut down the retry
sender, then the queue sender, then the wrapped exporter, combining the
three errors with `multierr.Combine`. -/
def baseExporter.Shutdown (be : baseExporter) : List SEvent × List Err :=
  let c1 := be.retrySender.shutdownCall .shutdownRetry
  let c2 := be.queueSender.shutdownCall .shutdownQueue
  let c3 : List SEvent × Option Err := ([.shutdownTransport], be.shutdownErr)
  (c1.1 ++ c2.1 ++ c3.1, multierrCombine [c1.2, c2.2, c3.2])

/-- What a send through one sender produces: the error handed back to the
caller and the log records emitted along the way. -/
structure SendResult where
  err : Option Err
  logs : List (String × Nat × Err) := []
deriving DecidableEq

/-- `errorLoggingRequestSender.send` (common.go:47-53): forward the request
unchanged to the next sender; if the returned error is non-nil, log the
configured message together with `dropped_items = req.Count()` and the
error; return the next sender's error unchanged. -/
def errorLoggingSend (message : String) (next : Request → SendResult)
    (req : Request) : SendResult :=
  let r := next req
  match r.err with
  | some e => { r with logs := r.logs ++ [(message, req.count, e)] }
  | none => r

/-!
## Part 2 — bounded in-memory queue

Modelled from the spec: the implementation file of `boundedMemoryQueue`
(`NewBoundedMemoryQueue`, `Produce`, `Size`, `Shutdown`) is not among the
sources at hand — only its tests are — so the definitions below follow the
specification's queue contract: a bounded FIFO of capacity `C` with `W`
worker tasks; `produce` returns true iff the request was enqueued (or
directly handed to a waiting worker when the buffer is full), false when
the queue is full or closed; `size()` counts only buffered items;
`shutdown` stops producers and drains the remaining items through the
workers.  FIFO order is maintained within a single worker but not across
workers: with several workers, in-flight requests may complete in any
order, which the transition system reflects by letting any in-flight
request finish.
-/

/-- Modelled from the spec: the state of a bounded in-memory queue
(`boundedMemoryQueue`, whose implementation file is not among the sources
at hand).  `buffer` holds the items currently buffered (FIFO), `idle`
counts workers blocked on dequeue, `busy` the requests currently in flight
at a worker, `consumed` the requests whose worker callback has completed,
in completion order, and `stopped` whether shutdown has begun.  `accepted`
records every request a successful `produce` accepted, in production
order. -/
structure QState where
  cap : Nat
  workers : Nat
  buffer : List Request := []
  idle : Nat := 0
  busy : List Request := []
  consumed : List Request := []
  accepted : List Request := []
  stopped : Bool := false
deriving DecidableEq

/-- The queue as `NewBoundedMemoryQueue(capacity, numConsumers)` plus
`Start` leave it: empty, all workers blocked on dequeue, accepting. -/
def QState.init (cap workers : Nat) : QState :=
  { cap := cap, workers := workers, idle := workers }

/-- Modelled from the spec: `size()` counts items currently buffered, not
items in flight at a worker. -/
def QState.size (s : QState) : Nat :=
  s.buffer.length

/-- Modelled from the spec: `produce(req)`.  Rejects when shutdown has
begun; buffers the request when the buffer has room; hands it directly to
a worker blocked on dequeue when there is no buffer room and nothing is
buffered (the `C = 0` direct hand-off — a worker can only be blocked on
dequeue while the buffer is empty); otherwise rejects without blocking. -/
def QState.produce (s : QState) (r : Request) : Bool × QState :=
  if s.stopped then (false, s)
  else if s.buffer.length < s.cap then
    (true, { s with buffer := s.buffer ++ [r], accepted := s.accepted ++ [r] })
  else if s.buffer = [] ∧ 0 < s.idle then
    (true, { s with idle := s.idle - 1, busy := s.busy ++ [r],
                    accepted := s.accepted ++ [r] })
  else (false, s)

/-- A worker blocked on dequeue takes the head of the buffer. -/
def QState.workerTake (s : QState) : QState :=
  match s.buffer with
  | [] => s
  | r :: rest =>
      if 0 < s.idle then
        { s with buffer := rest, idle := s.idle - 1, busy := s.busy ++ [r] }
      else s

/-- A worker's callback returns: the finished in-flight request is
recorded as consumed and its worker blocks on dequeue again.  Which
in-flight request finishes first is not determined by the program — FIFO
is maintained within a single worker but not across workers, so with
several workers completions may happen in any order — hence the finished
request is chosen by an arbitrary index `i` into the in-flight list (an
out-of-range index is a no-op). -/
def QState.workerFinish (s : QState) (i : Nat) : QState :=
  if h : i < s.busy.length then
    { s with busy := s.busy.eraseIdx i, idle := s.idle + 1,
             consumed := s.consumed ++ [s.busy[i]] }
  else s

/-- Modelled from the spec: `shutdown()` stops producers and, when the
queue has workers, drains every remaining request (in flight, then
buffered) through the worker callbacks before returning.  The drain is
modelled atomically; the listed completion order is exact only when the
queue has at most one worker (then at most one request is in flight and
the rest drain from the buffer in FIFO order) — with more workers the
program fixes no cross-worker completion order, so for `W > 1` only the
multiset of drained requests is meaningful, and no theorem below relies
on the drain order for `W > 1`. -/
def QState.shutdown (s : QState) : QState :=
  if s.workers = 0 then { s with stopped := true }
  else
    { s with stopped := true, buffer := [], busy := [], idle := s.workers,
             consumed := s.consumed ++ s.busy ++ s.buffer }

/-- One step of the queue system: a producer calls `produce`, a worker
takes a buffered item, a worker's callback returns, or shutdown runs. -/
inductive QStep : QState → QState → Prop
  | produce (r : Request) (s : QState) : QStep s (s.produce r).2
  | take (s : QState) : QStep s s.workerTake
  | finish (i : Nat) (s : QState) : QStep s (s.workerFinish i)
  | shutdown (s : QState) : QStep s s.shutdown

/-- Reachability: the states an execution of the queue can pass through. -/
inductive QReach : QState → QState → Prop
  | refl (s : QState) : QReach s s
  | tail {s t u : QState} : QReach s t → QStep t u → QReach s u

/-- All requests the queue still owes or has delivered, in FIFO
production order: consumed, then in flight, then buffered. -/
def QState.delivered (s : QState) : List Request :=
  s.consumed ++ s.busy ++ s.buffer

/-!
## Part 3 — request lifecycle

Modelled from the spec: the pipeline call sites that invoke
`OnProcessingFinished` (queue sender and retry sender) are not among the
sources at hand, so the per-request lifecycle is modelled from the
specification: a request enters, is buffered, is processed (possibly put
back by the retry stage), and ends in success, permanent drop, or shutdown
drop; the finished callback fires exactly on the transition into a
terminal phase.
-/

/-- Modelled from the spec: the phases of a request's lifetime in the
pipeline. -/
inductive ReqPhase
  | entered
  | buffered
  | processing
  | finSuccess
  | finPermanentDrop
  | finShutdownDrop
deriving DecidableEq

/-- A phase in which the request has left the pipeline. -/
def ReqPhase.terminal : ReqPhase → Bool
  | .finSuccess => true
  | .finPermanentDrop => true
  | .finShutdownDrop => true
  | _ => false

/-- A request's lifecycle state: its phase and how many times its
processing-finished callback has fired so far. -/
structure ReqLife where
  phase : ReqPhase
  fires : Nat
deriving DecidableEq

/-- A request whose finished callback is set. -/
def reqWithCallback : Request :=
  { hasFinishedCallback := true }

/-- Modelled from the spec: the transitions of a request's lifetime.  The
callback fires — via `Request.OnProcessingFinished` on a request whose
callback is set — exactly on the transitions into a terminal phase;
enqueueing, dequeueing and retry put-back do not fire it. -/
inductive LStep : ReqLife → ReqLife → Prop
  | enqueue (n : Nat) : LStep ⟨.entered, n⟩ ⟨.buffered, n⟩
  | dequeue (n : Nat) : LStep ⟨.buffered, n⟩ ⟨.processing, n⟩
  | putBack (n : Nat) : LStep ⟨.processing, n⟩ ⟨.buffered, n⟩
  | succeed (n : Nat) :
      LStep ⟨.processing, n⟩ ⟨.finSuccess, reqWithCallback.OnProcessingFinished n⟩
  | permDrop (n : Nat) :
      LStep ⟨.processing, n⟩ ⟨.finPermanentDrop, reqWithCallback.OnProcessingFinished n⟩
  | shutDrop (n : Nat) :
      LStep ⟨.buffered, n⟩ ⟨.finShutdownDrop, reqWithCallback.OnProcessingFinished n⟩

/-- Reachability in the lifecycle machine. -/
inductive LReach : ReqLife → ReqLife → Prop
  | refl (l : ReqLife) : LReach l l
  | tail {l m k : ReqLife} : LReach l m → LStep m k → LReach l k

/-!
## Helper lemmas about option application
-/

theorem applyOption_timeoutSender {o : ExpOption} {be be' : baseExporter}
    (h : applyOption o be = .ok be') : be'.timeoutSender = be.timeoutSender := by
  cases o <;> simp only [applyOption] at h <;>
    (repeat' split at h) <;> (cases h <;> rfl)

theorem applyOption_requestExporter {o : ExpOption} {be be' : baseExporter}
    (h : applyOption o be = .ok be') : be'.requestExporter = be.requestExporter := by
  cases o <;> simp only [applyOption] at h <;>
    (repeat' split at h) <;> (cases h <;> rfl)

theorem applyOption_queueSender {o : ExpOption} {be be' : baseExporter}
    (h : applyOption o be = .ok be') (hq : ∀ cfg, o ≠ .withQueue cfg) :
    be'.queueSender = be.queueSender := by
  cases o <;> simp only [applyOption] at h
  case withQueue cfg => exact absurd rfl (hq cfg)
  all_goals
    first
      | (cases h; rfl)
      | (split at h <;> (cases h; rfl))

theorem applyOption_retrySender {o : ExpOption} {be be' : baseExporter}
    (h : applyOption o be = .ok be') (hr : ∀ cfg, o ≠ .withRetry cfg) :
    be'.retrySender = be.retrySender := by
  cases o <;> simp only [applyOption] at h
  case withRetry cfg => exact absurd rfl (hr cfg)
  case withQueue cfg =>
    split at h
    · cases h
    · split at h <;> (cases h; rfl)
  all_goals (cases h; rfl)

theorem applyOptions_timeoutSender {opts : List ExpOption} {be be' : baseExporter}
    (h : applyOptions opts be = .ok be') : be'.timeoutSender = be.timeoutSender := by
  induction opts generalizing be with
  | nil => cases h; rfl
  | cons o os ih =>
      simp only [applyOptions] at h
      cases ho : applyOption o be with
      | ok b => rw [ho] at h; rw [ih h, applyOption_timeoutSender ho]
      | error e => rw [ho] at h; cases h

theorem applyOptions_requestExporter {opts : List ExpOption} {be be' : baseExporter}
    (h : applyOptions opts be = .ok be') : be'.requestExporter = be.requestExporter := by
  induction opts generalizing be with
  | nil => cases h; rfl
  | cons o os ih =>
      simp only [applyOptions] at h
      cases ho : applyOption o be with
      | ok b => rw [ho] at h; rw [ih h, applyOption_requestExporter ho]
      | error e => rw [ho] at h; cases h

theorem applyOptions_queueSender {opts : List ExpOption} {be be' : baseExporter}
    (h : applyOptions opts be = .ok be')
    (hq : ∀ cfg, ExpOption.withQueue cfg ∉ opts) :
    be'.queueSender = be.queueSender := by
  induction opts generalizing be with
  | nil => cases h; rfl
  | cons o os ih =>
      simp only [applyOptions] at h
      cases ho : applyOption o be with
      | ok b =>
          rw [ho] at h
          have h1 : ∀ cfg, ExpOption.withQueue cfg ∉ os := by
            intro cfg hmem
            exact hq cfg (List.mem_cons_of_mem _ hmem)
          have h2 : ∀ cfg, o ≠ .withQueue cfg := by
            intro cfg heq
            exact hq cfg (heq ▸ List.mem_cons_self _ _)
          rw [ih h h1, applyOption_queueSender ho h2]
      | error e => rw [ho] at h; cases h

theorem applyOptions_retrySender {opts : List ExpOption} {be be' : baseExporter}
    (h : applyOptions opts be = .ok be')
    (hr : ∀ cfg, ExpOption.withRetry cfg ∉ opts) :
    be'.retrySender = be.retrySender := by
  induction opts generalizing be with
  | nil => cases h; rfl
  | cons o os ih =>
      simp only [applyOptions] at h
      cases ho : applyOption o be with
      | ok b =>
          rw [ho] at h
          have h1 : ∀ cfg, ExpOption.withRetry cfg ∉ os := by
            intro cfg hmem
            exact hr cfg (List.mem_cons_of_mem _ hmem)
          have h2 : ∀ cfg, o ≠ .withRetry cfg := by
            intro cfg heq
            exact hr cfg (heq ▸ List.mem_cons_self _ _)
          rw [ih h h1, applyOption_retrySender ho h2]
      | error e => rw [ho] at h; cases h

/-!
## Helper lemmas about the queue transition system
-/

theorem qstep_cap {s t : QState} (h : QStep s t) : t.cap = s.cap := by
  cases h <;>
    simp only [QState.produce, QState.workerTake, QState.workerFinish, QState.shutdown] <;>
    (repeat' split) <;> rfl

theorem qstep_workers {s t : QState} (h : QStep s t) : t.workers = s.workers := by
  cases h <;>
    simp only [QState.produce, QState.workerTake, QState.workerFinish, QState.shutdown] <;>
    (repeat' split) <;> rfl

theorem qstep_stopped {s t : QState} (h : QStep s t) (hs : s.stopped = true) :
    t.stopped = true := by
  cases h <;>
    simp only [QState.produce, QState.workerTake, QState.workerFinish, QState.shutdown] <;>
    (repeat' split) <;> (first | exact hs | rfl)

theorem qstep_buffer_bound {s t : QState} (h : QStep s t)
    (hb : s.buffer.length ≤ s.cap) : t.buffer.length ≤ t.cap := by
  cases h <;>
    simp only [QState.produce, QState.workerTake, QState.workerFinish, QState.shutdown] <;>
    (repeat' split) <;>
    (first | exact hb | (simp_all [List.length_eraseIdx] <;> omega))

theorem qstep_idle_bound {s t : QState} (h : QStep s t)
    (hi : s.idle + s.busy.length ≤ s.workers) :
    t.idle + t.busy.length ≤ t.workers := by
  cases h <;>
    simp only [QState.produce, QState.workerTake, QState.workerFinish, QState.shutdown] <;>
    (repeat' split) <;>
    (first | exact hi | (simp_all [List.length_eraseIdx] <;> omega))

theorem produce_delivered_cases (s : QState) (r : Request) :
    ((s.produce r).2.delivered = s.delivered ++ [r] ∧
        (s.produce r).2.accepted = s.accepted ++ [r]) ∨
    (s.produce r).2 = s := by
  by_cases h1 : s.stopped = true
  · right
    simp [QState.produce, h1]
  · by_cases h2 : s.buffer.length < s.cap
    · left
      constructor <;> simp [QState.produce, h1, h2, QState.delivered, List.append_assoc]
    · by_cases h3 : s.buffer = [] ∧ 0 < s.idle
      · obtain ⟨h3a, h3b⟩ := h3
        rw [h3a] at h2
        simp only [List.length_nil, Nat.not_lt, Nat.le_zero] at h2
        left
        constructor <;>
          simp [QState.produce, h1, h2, h3a, h3b, QState.delivered, List.append_assoc]
      · right
        simp [QState.produce, h1, h2, h3]

theorem workerTake_delivered (s : QState) :
    s.workerTake.delivered = s.delivered ∧ s.workerTake.accepted = s.accepted := by
  cases hbuf : s.buffer with
  | nil => simp [QState.workerTake, hbuf]
  | cons r rest =>
      by_cases hi : 0 < s.idle <;>
        simp [QState.workerTake, hbuf, hi, QState.delivered, List.append_assoc]

theorem head_eraseIdx_perm {l : List Request} {i : Nat} (h : i < l.length) :
    List.Perm (l[i] :: l.eraseIdx i) l := by
  rw [List.eraseIdx_eq_take_drop_succ]
  have h1 : l = List.take i l ++ l[i] :: List.drop (i + 1) l := by
    conv_lhs => rw [← List.take_append_drop i l]
    rw [List.getElem_cons_drop l i h]
  conv_rhs => rw [h1]
  exact List.perm_middle.symm

theorem workerFinish_perm (s : QState) (i : Nat) :
    List.Perm (s.workerFinish i).delivered s.delivered ∧
    (s.workerFinish i).accepted = s.accepted := by
  by_cases h : i < s.busy.length
  · constructor
    · have he : (s.workerFinish i).delivered
          = (s.consumed ++ (s.busy[i] :: s.busy.eraseIdx i)) ++ s.buffer := by
        simp [QState.workerFinish, h, QState.delivered, List.append_assoc]
      rw [he]
      exact ((head_eraseIdx_perm h).append_left s.consumed).append_right s.buffer
    · simp [QState.workerFinish, h]
  · simp [QState.workerFinish, h]

theorem workerFinish_delivered_single (s : QState) (i : Nat)
    (hb : s.busy.length ≤ 1) : (s.workerFinish i).delivered = s.delivered := by
  by_cases h : i < s.busy.length
  · have hi0 : i = 0 := by omega
    subst hi0
    cases hbusy : s.busy with
    | nil =>
        rw [hbusy] at h
        cases h
    | cons b bs =>
        have hbs : bs = [] := by
          rw [hbusy] at hb
          simpa using hb
        subst hbs
        simp [QState.workerFinish, hbusy, QState.delivered, List.append_assoc]
  · simp [QState.workerFinish, h]

theorem shutdown_delivered (s : QState) :
    s.shutdown.delivered = s.delivered ∧ s.shutdown.accepted = s.accepted := by
  by_cases hw : s.workers = 0 <;>
    simp [QState.shutdown, hw, QState.delivered, List.append_assoc]

theorem qstep_delivered_perm {s t : QState} (h : QStep s t)
    (hd : List.Perm s.delivered s.accepted) :
    List.Perm t.delivered t.accepted := by
  cases h with
  | produce r s =>
      rcases produce_delivered_cases s r with ⟨hdel, hacc⟩ | heq
      · rw [hdel, hacc]
        exact hd.append_right [r]
      · rw [heq]
        exact hd
  | take s =>
      rw [(workerTake_delivered s).1, (workerTake_delivered s).2]
      exact hd
  | finish i s =>
      rw [(workerFinish_perm s i).2]
      exact ((workerFinish_perm s i).1).trans hd
  | shutdown s =>
      rw [(shutdown_delivered s).1, (shutdown_delivered s).2]
      exact hd

theorem qstep_delivered_fifo {s t : QState} (h : QStep s t)
    (hb : s.busy.length ≤ 1) (hd : s.delivered = s.accepted) :
    t.delivered = t.accepted := by
  cases h with
  | produce r s =>
      rcases produce_delivered_cases s r with ⟨hdel, hacc⟩ | heq
      · rw [hdel, hacc, hd]
      · rw [heq]
        exact hd
  | take s =>
      rw [(workerTake_delivered s).1, (workerTake_delivered s).2]
      exact hd
  | finish i s =>
      rw [workerFinish_delivered_single s i hb, (workerFinish_perm s i).2]
      exact hd
  | shutdown s =>
      rw [(shutdown_delivered s).1, (shutdown_delivered s).2]
      exact hd

theorem qreach_invariant {cap workers : Nat} {s : QState}
    (h : QReach (QState.init cap workers) s) :
    s.cap = cap ∧ s.workers = workers ∧ s.buffer.length ≤ cap ∧
    s.idle + s.busy.length ≤ workers ∧ List.Perm s.delivered s.accepted := by
  induction h with
  | refl => simp [QState.init, QState.delivered]
  | tail hr hs ih =>
      obtain ⟨hc, hw, hb, hi, hd⟩ := ih
      have pc := qstep_cap hs
      have pw := qstep_workers hs
      have pb := qstep_buffer_bound hs (by omega)
      have pi := qstep_idle_bound hs (by omega)
      have pd := qstep_delivered_perm hs hd
      exact ⟨pc.trans hc, pw.trans hw, by omega, by omega, pd⟩

theorem qreach_delivered_fifo {cap workers : Nat} {s : QState}
    (h : QReach (QState.init cap workers) s) (hw : workers ≤ 1) :
    s.delivered = s.accepted := by
  induction h with
  | refl => simp [QState.init, QState.delivered]
  | tail hr hstep ih =>
      have hb := (qreach_invariant hr).2.2.2.1
      exact qstep_delivered_fifo hstep (by omega) ih

theorem qreach_stopped {s t : QState} (h : QReach s t) (hs : s.stopped = true) :
    t.stopped = true := by
  induction h with
  | refl => exact hs
  | tail hr hstep ih => exact qstep_stopped hstep ih

/-!
## Helper lemmas about the request lifecycle
-/

theorem lstep_source_not_terminal {l m : ReqLife} (h : LStep l m) :
    l.phase.terminal = false := by
  cases h <;> rfl

theorem lreach_fires_invariant {l : ReqLife} (h : LReach ⟨.entered, 0⟩ l) :
    (l.phase.terminal = true → l.fires = 1) ∧
    (l.phase.terminal = false → l.fires = 0) := by
  induction h with
  | refl =>
      exact ⟨fun hterm => Bool.noConfusion hterm, fun _ => rfl⟩
  | tail hr hstep ih =>
      cases hstep with
      | enqueue n =>
          have hn : n = 0 := ih.2 rfl
          subst hn
          exact ⟨fun hterm => Bool.noConfusion hterm, fun _ => rfl⟩
      | dequeue n =>
          have hn : n = 0 := ih.2 rfl
          subst hn
          exact ⟨fun hterm => Bool.noConfusion hterm, fun _ => rfl⟩
      | putBack n =>
          have hn : n = 0 := ih.2 rfl
          subst hn
          exact ⟨fun hterm => Bool.noConfusion hterm, fun _ => rfl⟩
      | succeed n =>
          have hn : n = 0 := ih.2 rfl
          subst hn
          exact ⟨fun _ => rfl, fun hterm => Bool.noConfusion hterm⟩
      | permDrop n =>
          have hn : n = 0 := ih.2 rfl
          subst hn
          exact ⟨fun _ => rfl, fun hterm => Bool.noConfusion hterm⟩
      | shutDrop n =>
          have hn : n = 0 := ih.2 rfl
          subst hn
          exact ⟨fun _ => rfl, fun hterm => Bool.noConfusion hterm⟩

/-!
## Claim theorems — sender chain
-/

/-- C1: every `baseExporter` returned by `newBaseExporter`, whatever
options were applied, has its sender chain linked in the fixed order
`queue → obsrep → retry → timeout` (the timeout sender being the tail),
the public `send(req)` dispatches starting at the head (queue slot) and
visits exactly that slot sequence, and any optional slot not replaced by
its option is still the pass-through `baseRequestSender` it was
initialized with.  The model's `baseExporter` is immutable after
construction — `setNextSender` is invoked only from `connectSenders` — so
the link order never changes afterwards. -/
theorem newBaseExporter_chain_order (rE : Bool) (osf : SenderRec)
    (opts : List ExpOption) (be : baseExporter)
    (h : newBaseExporter rE osf opts = .ok be) :
    be.queueSender.next = some .obsrep ∧
    be.obsrepSender.next = some .retry ∧
    be.retrySender.next = some .timeout ∧
    be.timeoutSender.next = none ∧
    be.sendPath = [.queue, .obsrep, .retry, .timeout] ∧
    ((∀ cfg, ExpOption.withQueue cfg ∉ opts) → be.queueSender.kind = .passthrough) ∧
    ((∀ cfg, ExpOption.withRetry cfg ∉ opts) → be.retrySender.kind = .passthrough) := by
  unfold newBaseExporter at h
  cases ha : applyOptions opts (initialBaseExporter rE osf) with
  | error e => rw [ha] at h; cases h
  | ok b =>
      rw [ha] at h
      cases h
      have htm : b.timeoutSender = (initialBaseExporter rE osf).timeoutSender :=
        applyOptions_timeoutSender ha
      have htnext : b.timeoutSender.next = none := by
        rw [htm]; rfl
      refine ⟨rfl, rfl, rfl, htnext, ?_, ?_, ?_⟩
      · simp only [baseExporter.sendPath, nextChain, baseExporter.slot, connectSenders,
          htnext]
      · intro hq
        have : b.queueSender = (initialBaseExporter rE osf).queueSender :=
          applyOptions_queueSender ha hq
        rw [connectSenders]
        simp only [this]
        rfl
      · intro hr
        have : b.retrySender = (initialBaseExporter rE osf).retrySender :=
          applyOptions_retrySender ha hr
        rw [connectSenders]
        simp only [this]
        rfl

/-- Witness for C1 at a concrete construction with no options. -/
theorem newBaseExporter_chain_order_witness :
    (connectSenders (initialBaseExporter false { kind := .obsrepKind })).sendPath
        = [.queue, .obsrep, .retry, .timeout] ∧
    (connectSenders (initialBaseExporter false { kind := .obsrepKind })).queueSender.kind
        = .passthrough ∧
    (connectSenders (initialBaseExporter false { kind := .obsrepKind })).retrySender.kind
        = .passthrough := by
  have h := newBaseExporter_chain_order false { kind := .obsrepKind } []
    (connectSenders (initialBaseExporter false { kind := .obsrepKind })) rfl
  exact ⟨h.2.2.2.2.1,
    h.2.2.2.2.2.1 (by intro cfg hmem; cases hmem),
    h.2.2.2.2.2.2 (by intro cfg hmem; cases hmem)⟩

/-- C3: `baseExporter.Shutdown` always invokes the retry sender's
shutdown first, then the queue sender's, then the wrapped exporter's, and
it combines the errors of all three without short-circuiting: every
stage's non-nil error appears in the combined result whatever the earlier
stages returned. -/
theorem baseExporter_shutdown_order_accumulates (be : baseExporter) :
    (be.Shutdown).1 = [.shutdownRetry, .shutdownQueue, .shutdownTransport] ∧
    (be.Shutdown).2 = multierrCombine
        [be.retrySender.shutdownErr, be.queueSender.shutdownErr, be.shutdownErr] ∧
    (∀ e, be.retrySender.shutdownErr = some e → e ∈ (be.Shutdown).2) ∧
    (∀ e, be.queueSender.shutdownErr = some e → e ∈ (be.Shutdown).2) ∧
    (∀ e, be.shutdownErr = some e → e ∈ (be.Shutdown).2) := by
  refine ⟨rfl, rfl, ?_, ?_, ?_⟩ <;>
    intro e he <;>
    simp [baseExporter.Shutdown, SenderRec.shutdownCall, multierrCombine, he]

/-- Witness for C3 at a concrete exporter where all three stages fail. -/
theorem baseExporter_shutdown_order_accumulates_witness :
    (baseExporter.Shutdown
      { requestExporter := false
        queueSender := { kind := .passthrough, shutdownErr := some "qerr" }
        obsrepSender := { kind := .obsrepKind }
        retrySender := { kind := .passthrough, shutdownErr := some "rerr" }
        timeoutSender := { kind := .timeoutKind }
        timeoutCfg := NewDefaultTimeoutSettings
        shutdownErr := some "terr" }).1
      = [.shutdownRetry, .shutdownQueue, .shutdownTransport] ∧
    "rerr" ∈ (baseExporter.Shutdown
      { requestExporter := false
        queueSender := { kind := .passthrough, shutdownErr := some "qerr" }
        obsrepSender := { kind := .obsrepKind }
        retrySender := { kind := .passthrough, shutdownErr := some "rerr" }
        timeoutSender := { kind := .timeoutKind }
        timeoutCfg := NewDefaultTimeoutSettings
        shutdownErr := some "terr" }).2 ∧
    "terr" ∈ (baseExporter.Shutdown
      { requestExporter := false
        queueSender := { kind := .passthrough, shutdownErr := some "qerr" }
        obsrepSender := { kind := .obsrepKind }
        retrySender := { kind := .passthrough, shutdownErr := some "rerr" }
        timeoutSender := { kind := .timeoutKind }
        timeoutCfg := NewDefaultTimeoutSettings
        shutdownErr := some "terr" }).2 := by
  have h := baseExporter_shutdown_order_accumulates
    { requestExporter := false
      queueSender := { kind := .passthrough, shutdownErr := some "qerr" }
      obsrepSender := { kind := .obsrepKind }
      retrySender := { kind := .passthrough, shutdownErr := some "rerr" }
      timeoutSender := { kind := .timeoutKind }
      timeoutCfg := NewDefaultTimeoutSettings
      shutdownErr := some "terr" }
  exact ⟨h.1, h.2.2.1 "rerr" rfl, h.2.2.2.2 "terr" rfl⟩

/-- C6: `baseExporter.Start` starts the wrapped transport exporter first;
when the transport's start hook returns an error, that error is returned
and the queue sender is never started, so queue workers cannot dequeue
while the transport is not ready; when the transport starts cleanly, the
queue sender is started next and its error is returned. -/
theorem baseExporter_start_transport_first (be : baseExporter) :
    (be.Start).1.head? = some .startTransport ∧
    (∀ e, be.startErr = some e →
        (be.Start).2 = some e ∧ SEvent.startQueue ∉ (be.Start).1) ∧
    (be.startErr = none →
        be.Start = ([.startTransport, .startQueue], be.queueSender.startErr)) := by
  refine ⟨?_, ?_, ?_⟩
  · cases hs : be.startErr <;> simp [baseExporter.Start, hs]
  · intro e he
    simp [baseExporter.Start, he]
  · intro he
    simp [baseExporter.Start, he]

/-- Witness for C6: a transport whose start hook fails. -/
theorem baseExporter_start_transport_first_witness :
    (baseExporter.Start
      { requestExporter := false
        queueSender := { kind := .passthrough }
        obsrepSender := { kind := .obsrepKind }
        retrySender := { kind := .passthrough }
        timeoutSender := { kind := .timeoutKind }
        timeoutCfg := NewDefaultTimeoutSettings
        startErr := some "bad transport" }).2 = some "bad transport" ∧
    SEvent.startQueue ∉ (baseExporter.Start
      { requestExporter := false
        queueSender := { kind := .passthrough }
        obsrepSender := { kind := .obsrepKind }
        retrySender := { kind := .passthrough }
        timeoutSender := { kind := .timeoutKind }
        timeoutCfg := NewDefaultTimeoutSettings
        startErr := some "bad transport" }).1 :=
  (baseExporter_start_transport_first
    { requestExporter := false
      queueSender := { kind := .passthrough }
      obsrepSender := { kind := .obsrepKind }
      retrySender := { kind := .passthrough }
      timeoutSender := { kind := .timeoutKind }
      timeoutCfg := NewDefaultTimeoutSettings
      startErr := some "bad transport" }).2.1 "bad transport" rfl

/-- C5: applying `WithRetry` or `WithQueue` with `Enabled = false`
replaces the corresponding slot with an `errorLoggingRequestSender`
(for `WithQueue` on a non-request exporter, since the request-exporter
check panics first, cf. C10), and `errorLoggingRequestSender.send`
forwards the request to the next sender unchanged, returns the next
sender's error value unchanged, and emits a log record exactly when that
error is non-nil.  With the queue slot a direct pass-through, `send` runs
the downstream chain inline, i.e. synchronously. -/
theorem disabled_stage_error_logging_passthrough (cfg : RetrySettings)
    (qcfg : QueueSettings) (be : baseExporter) (msg : String)
    (next : Request → SendResult) (req : Request) :
    (cfg.Enabled = false →
        applyOption (.withRetry cfg) be
          = .ok { be with retrySender := { kind := .errorLogging retryDisabledMessage } }) ∧
    (qcfg.Enabled = false → be.requestExporter = false →
        applyOption (.withQueue qcfg) be
          = .ok { be with queueSender := { kind := .errorLogging queueDisabledMessage } }) ∧
    ((errorLoggingSend msg next req).err = (next req).err) ∧
    ((next req).err = none → errorLoggingSend msg next req = next req) ∧
    (∀ e, (next req).err = some e →
        (errorLoggingSend msg next req).logs = (next req).logs ++ [(msg, req.count, e)]) := by
  refine ⟨?_, ?_, ?_, ?_, ?_⟩
  · intro hc
    simp [applyOption, hc]
  · intro hc hre
    simp [applyOption, hc, hre]
  · cases he : (next req).err <;> simp [errorLoggingSend, he]
  · intro he
    simp [errorLoggingSend, he]
  · intro e he
    simp [errorLoggingSend, he]

/-- Witness for C5: disabled retry and queue options on a concrete
exporter, and a failing next sender that gets logged. -/
theorem disabled_stage_error_logging_passthrough_witness :
    (applyOption (.withRetry { Enabled := false })
      (initialBaseExporter false { kind := .obsrepKind })
        = .ok { initialBaseExporter false { kind := .obsrepKind } with
            retrySender := { kind := .errorLogging retryDisabledMessage } }) ∧
    (applyOption (.withQueue { Enabled := false })
      (initialBaseExporter false { kind := .obsrepKind })
        = .ok { initialBaseExporter false { kind := .obsrepKind } with
            queueSender := { kind := .errorLogging queueDisabledMessage } }) ∧
    ((errorLoggingSend "m" (fun _ => { err := some "boom" }) { count := 7 }).logs
        = [("m", 7, "boom")]) := by
  have h := disabled_stage_error_logging_passthrough { Enabled := false }
    { Enabled := false } (initialBaseExporter false { kind := .obsrepKind }) "m"
    (fun _ => { err := some "boom" }) { count := 7 }
  exact ⟨h.1 rfl, h.2.1 rfl rfl, h.2.2.2.2 "boom" rfl⟩

/-- C10: applying `WithQueue` to an exporter with `requestExporter = true`
panics with the queue panic message, whatever the queue configuration
(`Enabled` included, since the panic check precedes the `Enabled` check);
on an exporter with `requestExporter = false` it never panics. -/
theorem withQueue_request_exporter_panics (cfg : QueueSettings) (be : baseExporter) :
    (be.requestExporter = true →
        applyOption (.withQueue cfg) be = .error queuePanicMessage) ∧
    (be.requestExporter = false →
        ∃ be', applyOption (.withQueue cfg) be = .ok be') := by
  constructor
  · intro hre
    simp [applyOption, hre]
  · intro hre
    cases hc : cfg.Enabled <;>
      simp [applyOption, hre, hc]

/-- Witness for C10: a request exporter with queueing enabled and one
with it disabled both panic; a plain exporter does not. -/
theorem withQueue_request_exporter_panics_witness :
    (applyOption (.withQueue { Enabled := true })
        (initialBaseExporter true { kind := .obsrepKind }) = .error queuePanicMessage) ∧
    (applyOption (.withQueue { Enabled := false })
        (initialBaseExporter true { kind := .obsrepKind }) = .error queuePanicMessage) ∧
    (∃ be', applyOption (.withQueue { Enabled := true })
        (initialBaseExporter false { kind := .obsrepKind }) = .ok be') :=
  ⟨(withQueue_request_exporter_panics { Enabled := true }
      (initialBaseExporter true { kind := .obsrepKind })).1 rfl,
   (withQueue_request_exporter_panics { Enabled := false }
      (initialBaseExporter true { kind := .obsrepKind })).1 rfl,
   (withQueue_request_exporter_panics { Enabled := true }
      (initialBaseExporter false { kind := .obsrepKind })).2 rfl⟩

/-!
## Claim theorems — bounded queue and request lifecycle
-/

/-- The ten requests "a".."j" of the drain-on-shutdown scenario. -/
def c2Reqs : List Request :=
  [{ str := "a" }, { str := "b" }, { str := "c" }, { str := "d" }, { str := "e" },
   { str := "f" }, { str := "g" }, { str := "h" }, { str := "i" }, { str := "j" }]

/-- Run a sequence of `produce` calls, collecting the returned booleans. -/
def produceAll (s : QState) : List Request → List Bool × QState
  | [] => ([], s)
  | r :: rs =>
      let p := s.produce r
      let q := produceAll p.2 rs
      (p.1 :: q.1, q.2)

/-- C2: on a queue with capacity 10 and one worker, the ten requests
"a".."j" are all accepted by `produce`; calling `shutdown()` delivers all
ten to the worker callback, in order, before it returns; `size()` is 0 at
return; and any `produce` called after shutdown — and after any further
steps — returns false and leaves the state unchanged. -/
theorem queue_drain_on_shutdown :
    (produceAll (QState.init 10 1) c2Reqs).1 = List.replicate 10 true ∧
    ((produceAll (QState.init 10 1) c2Reqs).2.shutdown).consumed = c2Reqs ∧
    ((produceAll (QState.init 10 1) c2Reqs).2.shutdown).size = 0 ∧
    (∀ r : Request,
        (((produceAll (QState.init 10 1) c2Reqs).2.shutdown).produce r).1 = false) ∧
    (∀ (s : QState) (r : Request), s.stopped = true → s.produce r = (false, s)) ∧
    (∀ s : QState, s.shutdown.stopped = true) ∧
    (∀ s t : QState, QReach s t → s.stopped = true → t.stopped = true) := by
  refine ⟨rfl, rfl, rfl, ?_, ?_, ?_, ?_⟩
  · intro r
    rfl
  · intro s r hs
    simp [QState.produce, hs]
  · intro s
    by_cases hw : s.workers = 0 <;> simp [QState.shutdown, hw]
  · intro s t h hs
    exact qreach_stopped h hs

/-- Witness for C2's universally quantified parts: a freshly shut-down
queue rejects a produce. -/
theorem queue_drain_on_shutdown_witness :
    (QState.init 1 0).shutdown.produce { str := "y" }
      = (false, (QState.init 1 0).shutdown) :=
  queue_drain_on_shutdown.2.2.2.2.1 (QState.init 1 0).shutdown { str := "y" }
    (queue_drain_on_shutdown.2.2.2.2.2.1 (QState.init 1 0))

/-- Request "a" of the overflow scenario. -/
def reqA : Request := { str := "a" }

/-- Request "b" of the overflow scenario. -/
def reqB : Request := { str := "b" }

/-- Request "c" of the overflow scenario. -/
def reqC : Request := { str := "c" }

/-- Overflow scenario, after `produce("a")` on `queue(C=1, W=1)`. -/
def c4AfterA : QState := ((QState.init 1 1).produce reqA).2

/-- Overflow scenario, after the (blocked) worker has taken "a". -/
def c4AfterTakeA : QState := c4AfterA.workerTake

/-- Overflow scenario, after `produce("b")` buffered "b". -/
def c4AfterB : QState := (c4AfterTakeA.produce reqB).2

/-- Reordering run on `queue(C=2, W=2)`: "a" produced. -/
def c4ReorderS1 : QState := ((QState.init 2 2).produce reqA).2

/-- Reordering run: "b" produced. -/
def c4ReorderS2 : QState := (c4ReorderS1.produce reqB).2

/-- Reordering run: worker 1 takes "a". -/
def c4ReorderS3 : QState := c4ReorderS2.workerTake

/-- Reordering run: worker 2 takes "b"; both workers now hold a request,
as after blocking both workers of the scenario. -/
def c4ReorderS4 : QState := c4ReorderS3.workerTake

/-- Reordering run: worker 2 finishes "b" first. -/
def c4ReorderS5 : QState := c4ReorderS4.workerFinish 1

/-- Reordering run: worker 1 finishes "a" second. -/
def c4ReorderS6 : QState := c4ReorderS5.workerFinish 0

/-- C4 counterexample: with two workers the claim's FIFO clause fails.
On `queue(C=2, W=2)` produce "a" and "b" (both accepted), let each worker
take one request, and let the worker holding "b" finish first: the queue
reaches a state where the consumer has seen `["b", "a"]` although the
accepted production order is `["a", "b"]` — the consumed list is not a
prefix of the accepted list, so accepted items are not seen in FIFO
production order for every worker count. -/
theorem bounded_queue_fifo_across_workers_counterexample :
    QReach (QState.init 2 2) c4ReorderS6 ∧
    c4ReorderS6.accepted = [reqA, reqB] ∧
    c4ReorderS6.consumed = [reqB, reqA] ∧
    ¬ c4ReorderS6.consumed <+: c4ReorderS6.accepted := by
  refine ⟨?_, rfl, rfl, ?_⟩
  · exact QReach.tail (QReach.tail (QReach.tail (QReach.tail (QReach.tail (QReach.tail
      (QReach.refl _) (QStep.produce reqA _)) (QStep.produce reqB _)) (QStep.take _))
      (QStep.take _)) (QStep.finish 1 _)) (QStep.finish 0 _)
  · rintro ⟨t, ht⟩
    have hc : c4ReorderS6.consumed = [reqB, reqA] := rfl
    have ha : c4ReorderS6.accepted = [reqA, reqB] := rfl
    rw [hc, ha] at ht
    have := congrArg List.head? ht
    simp [reqA, reqB] at this

/-- C4 (amended): a bounded queue whose workers are all blocked (none
idle on dequeue) rejects every `produce` once `C` items are buffered,
without changing the state, for every capacity and worker count; accepted
requests are delivered without loss or duplication (in every reachable
state consumed ++ in-flight ++ buffered is a permutation of the accepted
list); delivery follows FIFO production order whenever the queue has at
most one worker — FIFO is per-worker, and with `W > 1` completions may
interleave out of production order (see the counterexample) — so with
`W ≤ 1` the consumed list is always a prefix of the accepted list; and in
the `C=1, W=1` scenario `produce("a")` and `produce("b")` return true,
`produce("c")` returns false, and after the worker unblocks the consumer
has seen exactly `["a", "b"]` in that order. -/
theorem bounded_queue_overflow_reject_fifo :
    (∀ (s : QState) (r : Request), s.stopped = false → s.idle = 0 →
        s.cap ≤ s.buffer.length → s.produce r = (false, s)) ∧
    (∀ (cap workers : Nat) (s : QState), QReach (QState.init cap workers) s →
        List.Perm (s.consumed ++ s.busy ++ s.buffer) s.accepted) ∧
    (∀ (cap workers : Nat) (s : QState), workers ≤ 1 →
        QReach (QState.init cap workers) s →
        s.consumed ++ s.busy ++ s.buffer = s.accepted ∧ s.consumed <+: s.accepted) ∧
    ((QState.init 1 1).produce reqA).1 = true ∧
    (c4AfterTakeA.produce reqB).1 = true ∧
    c4AfterB.produce reqC = (false, c4AfterB) ∧
    ((c4AfterB.workerFinish 0).workerTake.workerFinish 0).consumed = [reqA, reqB] := by
  refine ⟨?_, ?_, ?_, rfl, rfl, rfl, rfl⟩
  · intro s r hst hidle hcap
    simp [QState.produce, hst, Nat.not_lt.mpr hcap, hidle]
  · intro cap workers s h
    exact (qreach_invariant h).2.2.2.2
  · intro cap workers s hw h
    have hd := qreach_delivered_fifo h hw
    simp only [QState.delivered] at hd
    exact ⟨hd, s.busy ++ s.buffer, by rw [← hd, List.append_assoc]⟩

/-- Witness for C4's universally quantified parts, at the concrete
full-and-blocked state of the scenario and at the initial state. -/
theorem bounded_queue_overflow_reject_fifo_witness :
    c4AfterB.produce reqC = (false, c4AfterB) ∧
    (QState.init 1 1).consumed ++ (QState.init 1 1).busy ++ (QState.init 1 1).buffer
      = (QState.init 1 1).accepted :=
  ⟨bounded_queue_overflow_reject_fifo.1 c4AfterB reqC rfl rfl (by decide),
   (bounded_queue_overflow_reject_fifo.2.2.1 1 1 (QState.init 1 1)
      (by decide) (QReach.refl _)).1⟩

/-- C7: on a zero-capacity queue that has not been shut down, `produce`
succeeds exactly when some worker is currently blocked on dequeue (direct
hand-off); on a zero-capacity queue with zero workers, every `produce`
returns false. -/
theorem zero_capacity_produce_handoff (w : Nat) (s : QState) (r : Request) :
    (QReach (QState.init 0 w) s → s.stopped = false →
        ((s.produce r).1 = true ↔ 0 < s.idle)) ∧
    (QReach (QState.init 0 0) s → (s.produce r).1 = false) := by
  constructor
  · intro h hst
    have hi := qreach_invariant h
    have hb : s.buffer = [] := List.eq_nil_of_length_eq_zero (Nat.le_zero.mp hi.2.2.1)
    have hc : s.cap = 0 := hi.1
    by_cases hidle : 0 < s.idle <;>
      simp [QState.produce, hst, hb, hc, hidle]
  · intro h
    have hi := qreach_invariant h
    have hb : s.buffer = [] := List.eq_nil_of_length_eq_zero (Nat.le_zero.mp hi.2.2.1)
    have hc : s.cap = 0 := hi.1
    have hidle : s.idle = 0 := by
      have := hi.2.2.2.1
      omega
    by_cases hst : s.stopped = true <;>
      simp [QState.produce, hst, hb, hc, hidle]

/-- Witness for C7: with one ready worker a hand-off succeeds; with no
workers produce fails. -/
theorem zero_capacity_produce_handoff_witness :
    (((QState.init 0 1).produce { str := "a" }).1 = true) ∧
    (((QState.init 0 0).produce { str := "a" }).1 = false) :=
  ⟨((zero_capacity_produce_handoff 1 (QState.init 0 1) { str := "a" }).1
      (QReach.refl _) rfl).mpr (by decide),
   (zero_capacity_produce_handoff 0 (QState.init 0 0) { str := "a" }).2
      (QReach.refl _)⟩

/-- C9: in every state any execution of the bounded queue can reach,
`0 ≤ size() ≤ capacity` holds, where `size()` counts exactly the buffered
items (not those in flight at a worker). -/
theorem queue_size_within_capacity (cap workers : Nat) (s : QState)
    (h : QReach (QState.init cap workers) s) :
    s.size ≤ cap ∧ s.cap = cap ∧ s.size = s.buffer.length := by
  have hi := qreach_invariant h
  exact ⟨hi.2.2.1, hi.1, rfl⟩

/-- Witness for C9 at the initial state of a capacity-3 queue. -/
theorem queue_size_within_capacity_witness :
    (QState.init 3 2).size ≤ 3 :=
  (queue_size_within_capacity 3 2 (QState.init 3 2) (QReach.refl _)).1

/-- C8: along every execution of a request's lifecycle starting when the
request enters the pipeline with its callback not yet fired, the
processing-finished callback has fired exactly once whenever the request
has reached a terminal phase (success, permanent drop, or shutdown drop)
and zero times before; and no step leaves a terminal phase, so the
callback can never fire a second time. -/
theorem finished_callback_exactly_once (l : ReqLife)
    (h : LReach ⟨.entered, 0⟩ l) :
    (l.phase.terminal = true → l.fires = 1) ∧
    (l.phase.terminal = false → l.fires = 0) ∧
    (∀ m k : ReqLife, LStep m k → m.phase.terminal = false) := by
  have hi := lreach_fires_invariant h
  exact ⟨hi.1, hi.2, fun m k hs => lstep_source_not_terminal hs⟩

/-- Witness for C8: a request that enters, is buffered, is processed and
succeeds has fired its callback exactly once. -/
theorem finished_callback_exactly_once_witness :
    (ReqLife.mk .finSuccess 1).fires = 1 ∧ (ReqLife.mk .buffered 0).fires = 0 :=
  ⟨(finished_callback_exactly_once ⟨.finSuccess, 1⟩
      (LReach.tail (LReach.tail (LReach.tail (LReach.refl _)
        (LStep.enqueue 0)) (LStep.dequeue 0)) (LStep.succeed 0))).1 rfl,
   (finished_callback_exactly_once ⟨.buffered, 0⟩
      (LReach.tail (LReach.refl _) (LStep.enqueue 0))).2.1 rfl⟩

end OtelExporterHelper
